import Mathlib

set_option maxHeartbeats 1000000

/-
Verification of the OLX apartment notifier (bot.py and olx_scraper.py).

The two Python files are shallowly embedded below.  SQLite tables become
Lean lists of row structures with explicit state passing; timestamps
(`CURRENT_TIMESTAMP`) are environmental inputs passed as `Nat` arguments;
the network and the HTML/JSON-LD extraction performed by `requests` and
BeautifulSoup are modelled as explicit fetch-outcome inputs, while all of
the scripts' own selection, parsing, formatting and control-flow logic is
embedded faithfully.
-/

namespace OlxBot

/-- Row of the `seen_listings` table (bot.py `init_db`, olx_scraper.py
`Database.init_db`): `listing_id TEXT PRIMARY KEY, title TEXT, price TEXT,
url TEXT, first_seen TIMESTAMP DEFAULT CURRENT_TIMESTAMP`. -/
structure SeenRow where
  listing_id : String
  title : String
  price : String
  url : String
  first_seen : Nat
deriving DecidableEq, Repr

/-- The `seen_listings` table, rows in insertion order. -/
abbrev DB := List SeenRow

/-- bot.py `is_seen` / olx_scraper.py `Database.is_seen`:
`SELECT 1 FROM seen_listings WHERE listing_id = ?`, returning whether a
row exists. -/
def is_seen (db : DB) (listing_id : String) : Bool :=
  db.any (fun r => r.listing_id == listing_id)

/-- bot.py `mark_seen` / olx_scraper.py `Database.mark_seen`:
`INSERT OR IGNORE INTO seen_listings (listing_id, title, price, url)
VALUES (?,?,?,?)`.  Since `listing_id` is the primary key, the insert is
silently dropped when a row with that key already exists; otherwise a new
row is appended with `first_seen = CURRENT_TIMESTAMP` (the `now` input). -/
def mark_seen (db : DB) (listing_id title price url : String) (now : Nat) : DB :=
  if is_seen db listing_id then db
  else db ++ [⟨listing_id, title, price, url, now⟩]

theorem is_seen_append (db : DB) (r : SeenRow) (x : String) :
    is_seen (db ++ [r]) x = (is_seen db x || (r.listing_id == x)) := by
  simp [is_seen]

theorem is_seen_mark (db : DB) (l t p u : String) (n : Nat) (x : String) :
    is_seen (mark_seen db l t p u n) x = (is_seen db x || (l == x)) := by
  unfold mark_seen
  split
  · rename_i h
    by_cases hlx : l = x
    · subst hlx; simp [h]
    · simp [hlx]
  · simp [is_seen_append]

theorem is_seen_mark_self (db : DB) (l t p u : String) (n : Nat) :
    is_seen (mark_seen db l t p u n) l = true := by
  simp [is_seen_mark]

theorem mark_seen_of_seen (db : DB) (l t p u : String) (n : Nat)
    (h : is_seen db l = true) : mark_seen db l t p u n = db := by
  simp [mark_seen, h]

/-- A single `mark_seen` call with its arguments, used to describe traces of
store operations. -/
structure MarkOp where
  lid : String
  title : String
  price : String
  url : String
  now : Nat
deriving DecidableEq, Repr

/-- Apply a sequence of `mark_seen` calls to the store. -/
def applyMarks (db : DB) (ops : List MarkOp) : DB :=
  ops.foldl (fun d op => mark_seen d op.lid op.title op.price op.url op.now) db

/-- The store created by `init_db`: no `seen_listings` rows. -/
def emptyDB : DB := []

theorem is_seen_applyMarks (ops : List MarkOp) (db : DB) (x : String) :
    is_seen (applyMarks db ops) x
      = (is_seen db x || ops.any (fun op => op.lid == x)) := by
  induction ops generalizing db with
  | nil => simp [applyMarks]
  | cons op ops ih =>
    simp only [applyMarks, List.foldl_cons, List.any_cons]
    rw [show (List.foldl (fun d op => mark_seen d op.lid op.title op.price op.url op.now)
          (mark_seen db op.lid op.title op.price op.url op.now) ops)
        = applyMarks (mark_seen db op.lid op.title op.price op.url op.now) ops from rfl]
    rw [ih, is_seen_mark]
    cases h : is_seen db x <;> cases h2 : (op.lid == x) <;> simp

theorem filter_lid_eq_nil (db : DB) (x : String) (h : is_seen db x = false) :
    db.filter (fun r => r.listing_id == x) = [] := by
  rw [List.filter_eq_nil_iff]
  intro r hr
  simp only [is_seen, List.any_eq_false] at h
  simpa using h r hr

/-- C1: for every listing id `X`, `is_seen X` is false on a store in which no
`mark_seen X` has been performed, becomes true exactly when some `mark_seen X`
has been applied, and once true it stays true across any further `mark_seen`
calls, for every caller querying the shared store. -/
theorem seen_iff_marked (ops : List MarkOp) (x : String) :
    (is_seen (applyMarks emptyDB ops) x = true ↔ ∃ op ∈ ops, op.lid = x)
    ∧ (∀ (db : DB) (more : List MarkOp),
        is_seen db x = true → is_seen (applyMarks db more) x = true) := by
  constructor
  · rw [is_seen_applyMarks]
    simp [emptyDB, is_seen]
  · intro db more h
    rw [is_seen_applyMarks, h]
    simp

/-- Witness for `seen_iff_marked` at a concrete trace. -/
theorem seen_iff_marked_witness :
    is_seen (applyMarks [⟨"abc1", "t", "p", "u", 5⟩] [⟨"other", "t2", "p2", "u2", 6⟩]) "abc1"
      = true :=
  (seen_iff_marked [] "abc1").2 [⟨"abc1", "t", "p", "u", 5⟩] [⟨"other", "t2", "p2", "u2", 6⟩]
    (by decide)

/-- C2: `mark_seen` is idempotent.  A second `mark_seen` for the same
`listing_id`, with identical or different metadata, is a no-op on the store,
and when the id was fresh the store holds exactly one row for it, carrying the
first call's title, price, url and timestamp. -/
theorem mark_seen_idempotent (db : DB) (x t₁ p₁ u₁ t₂ p₂ u₂ : String) (c₁ c₂ : Nat) :
    (mark_seen (mark_seen db x t₁ p₁ u₁ c₁) x t₂ p₂ u₂ c₂
        = mark_seen db x t₁ p₁ u₁ c₁)
    ∧ (is_seen db x = false →
        (mark_seen db x t₁ p₁ u₁ c₁).filter (fun r => r.listing_id == x)
          = [⟨x, t₁, p₁, u₁, c₁⟩]) := by
  constructor
  · exact mark_seen_of_seen _ _ _ _ _ _ (is_seen_mark_self db x t₁ p₁ u₁ c₁)
  · intro h
    rw [show mark_seen db x t₁ p₁ u₁ c₁ = db ++ [⟨x, t₁, p₁, u₁, c₁⟩] by
      simp [mark_seen, h]]
    rw [List.filter_append, filter_lid_eq_nil db x h]
    simp

/-- Witness for `mark_seen_idempotent` on a fresh store. -/
theorem mark_seen_idempotent_witness :
    is_seen emptyDB "z9" = false
    ∧ (mark_seen emptyDB "z9" "t1" "p1" "u1" 3).filter (fun r => r.listing_id == "z9")
        = [⟨"z9", "t1", "p1", "u1", 3⟩] :=
  ⟨by decide,
   (mark_seen_idempotent emptyDB "z9" "t1" "p1" "u1" "t2" "p2" "u2" 3 4).2 (by decide)⟩

/-! Filter registry: the `filter_urls` table of bot.py (`init_db`,
`add_filter`, `remove_filter`, `get_filters`, `get_all_filters`). -/

/-- Row of the `filter_urls` table: `id INTEGER PRIMARY KEY AUTOINCREMENT,
chat_id TEXT NOT NULL, url TEXT NOT NULL, name TEXT,
created_at TIMESTAMP DEFAULT CURRENT_TIMESTAMP, UNIQUE(chat_id, url)`. -/
structure FilterRow where
  id : Nat
  chat_id : String
  url : String
  name : Option String
  created_at : Nat
deriving DecidableEq, Repr

/-- The `filter_urls` table: rows in insertion (rowid) order, together with
the AUTOINCREMENT counter for the next `id`. -/
structure FilterDB where
  rows : List FilterRow
  nextId : Nat
deriving DecidableEq, Repr

/-- Result dict of bot.py `add_filter`: either
`{"success": True, "id": cursor.lastrowid}` or, when the UNIQUE(chat_id, url)
constraint raises `sqlite3.IntegrityError`,
`{"success": False, "error": ...}`. -/
inductive AddResult where
  | ok (id : Nat)
  | dup
deriving DecidableEq, Repr

/-- bot.py `add_filter`: `INSERT INTO filter_urls (chat_id, url, name)`.
The UNIQUE(chat_id, url) constraint makes the insert fail (caught as
`IntegrityError`) exactly when a row with the same pair already exists. -/
def add_filter (fdb : FilterDB) (chat_id url : String) (name : Option String)
    (now : Nat) : FilterDB × AddResult :=
  if fdb.rows.any (fun r => r.chat_id == chat_id && r.url == url) then
    (fdb, .dup)
  else
    (⟨fdb.rows ++ [⟨fdb.nextId, chat_id, url, name, now⟩], fdb.nextId + 1⟩,
     .ok fdb.nextId)

/-- bot.py `remove_filter`:
`DELETE FROM filter_urls WHERE id = ? AND chat_id = ?`, returning
`cursor.rowcount > 0`. -/
def remove_filter (fdb : FilterDB) (chat_id : String) (filter_id : Int) :
    FilterDB × Bool :=
  (⟨fdb.rows.filter (fun r => !((r.id : Int) == filter_id && r.chat_id == chat_id)),
    fdb.nextId⟩,
   decide ((fdb.rows.filter
      (fun r => !((r.id : Int) == filter_id && r.chat_id == chat_id))).length
        < fdb.rows.length))

/-- bot.py `get_filters`:
`SELECT id, url, name, created_at FROM filter_urls WHERE chat_id = ?
ORDER BY id DESC`.  Rows are stored in ascending rowid (= id) order, so the
descending order is the reverse of the filtered list. -/
def get_filters (fdb : FilterDB) (chat_id : String) : List FilterRow :=
  (fdb.rows.filter (fun r => r.chat_id == chat_id)).reverse

/-- bot.py `get_all_filters`: `SELECT chat_id, url FROM filter_urls`. -/
def get_all_filters (fdb : FilterDB) : List (String × String) :=
  fdb.rows.map (fun r => (r.chat_id, r.url))

theorem length_filter_lt_iff {α : Type} (p : α → Bool) (l : List α) :
    (l.filter p).length < l.length ↔ ∃ x ∈ l, p x = false := by
  induction l with
  | nil => simp
  | cons a l ih =>
    cases h : p a with
    | true =>
      simp only [List.filter_cons, h, if_pos, List.length_cons, Nat.succ_lt_succ_iff, ih,
        List.mem_cons]
      constructor
      · rintro ⟨x, hx, hpx⟩; exact ⟨x, Or.inr hx, hpx⟩
      · rintro ⟨x, hx | hx, hpx⟩
        · subst hx; rw [h] at hpx; cases hpx
        · exact ⟨x, hx, hpx⟩
    | false =>
      simp only [List.filter_cons, h, List.length_cons, List.mem_cons]
      constructor
      · intro _; exact ⟨a, Or.inl rfl, h⟩
      · intro _
        exact Nat.lt_succ_of_le (List.length_filter_le p l)

/-- C6: on a fresh registry, `add_filter` succeeds with the new row id; an
immediate second `add_filter` for the same `(owner, url)` pair returns the
structured duplicate failure without changing the table, which keeps exactly
one row for that pair; `add_filter` for the same url under a different owner
succeeds. -/
theorem add_filter_unique_pair (o₁ o₂ u : String) (n₁ n₂ n₃ : Option String)
    (t₁ t₂ t₃ : Nat) (howner : o₁ ≠ o₂) :
    ((add_filter ⟨[], 1⟩ o₁ u n₁ t₁).2 = AddResult.ok 1
      ∧ (add_filter ⟨[], 1⟩ o₁ u n₁ t₁).1.rows = [⟨1, o₁, u, n₁, t₁⟩])
    ∧ ((add_filter (add_filter ⟨[], 1⟩ o₁ u n₁ t₁).1 o₁ u n₂ t₂).2 = AddResult.dup
      ∧ (add_filter (add_filter ⟨[], 1⟩ o₁ u n₁ t₁).1 o₁ u n₂ t₂).1
          = (add_filter ⟨[], 1⟩ o₁ u n₁ t₁).1
      ∧ ((add_filter (add_filter ⟨[], 1⟩ o₁ u n₁ t₁).1 o₁ u n₂ t₂).1.rows.filter
          (fun r => r.chat_id == o₁ && r.url == u)).length = 1)
    ∧ (add_filter (add_filter ⟨[], 1⟩ o₁ u n₁ t₁).1 o₂ u n₃ t₃).2 = AddResult.ok 2 := by
  have hne : (o₁ == o₂) = false := beq_eq_false_iff_ne.mpr howner
  refine ⟨⟨?_, ?_⟩, ⟨?_, ?_, ?_⟩, ?_⟩ <;>
    simp [add_filter, hne]

/-- Witness for `add_filter_unique_pair` on concrete owners and url. -/
theorem add_filter_unique_pair_witness :
    ("A" : String) ≠ "B"
    ∧ (add_filter (add_filter ⟨[], 1⟩ "A" "u" none 0).1 "A" "u" none 0).2
        = AddResult.dup
    ∧ (add_filter (add_filter ⟨[], 1⟩ "A" "u" none 0).1 "B" "u" none 0).2
        = AddResult.ok 2 :=
  ⟨by decide,
   (add_filter_unique_pair "A" "B" "u" none none none 0 0 0 (by decide)).2.1.1,
   (add_filter_unique_pair "A" "B" "u" none none none 0 0 0 (by decide)).2.2⟩

/-- C7: `remove_filter` reports `true` exactly when a row with the given id
owned by the calling owner existed; when the id exists only under another
owner (or not at all) it deletes nothing, reports `false`, and every owner's
filter listing is unchanged. -/
theorem remove_filter_owner_scoped (fdb : FilterDB) (owner : String) (fid : Int) :
    ((remove_filter fdb owner fid).2 = true
      ↔ ∃ r ∈ fdb.rows, (r.id : Int) = fid ∧ r.chat_id = owner)
    ∧ ((∀ r ∈ fdb.rows, (r.id : Int) = fid → r.chat_id ≠ owner) →
        remove_filter fdb owner fid = (fdb, false)
        ∧ ∀ other, get_filters (remove_filter fdb owner fid).1 other
            = get_filters fdb other) := by
  constructor
  · simp only [remove_filter, decide_eq_true_eq]
    rw [length_filter_lt_iff]
    constructor
    · rintro ⟨r, hr, hpr⟩
      refine ⟨r, hr, ?_⟩
      simpa using hpr
    · rintro ⟨r, hr, h1, h2⟩
      refine ⟨r, hr, ?_⟩
      simp [h1, h2]
  · intro h
    have hall : fdb.rows.filter
        (fun r => !((r.id : Int) == fid && r.chat_id == owner)) = fdb.rows := by
      rw [List.filter_eq_self]
      intro r hr
      by_cases hid : (r.id : Int) = fid
      · have := h r hr hid
        simp [this]
      · simp [hid]
    have hfst : remove_filter fdb owner fid = (fdb, false) := by
      simp only [remove_filter]
      rw [hall]
      simp
    refine ⟨hfst, fun other => ?_⟩
    rw [hfst]

/-- Witness for `remove_filter_owner_scoped`: owner A cannot delete B's
filter. -/
theorem remove_filter_owner_scoped_witness :
    (remove_filter ⟨[⟨1, "B", "u", none, 0⟩], 2⟩ "A" 1
        = (⟨[⟨1, "B", "u", none, 0⟩], 2⟩, false))
    ∧ get_filters (remove_filter ⟨[⟨1, "B", "u", none, 0⟩], 2⟩ "A" 1).1 "B"
        = get_filters ⟨[⟨1, "B", "u", none, 0⟩], 2⟩ "B" :=
  ⟨((remove_filter_owner_scoped ⟨[⟨1, "B", "u", none, 0⟩], 2⟩ "A" 1).2
      (by decide)).1,
   ((remove_filter_owner_scoped ⟨[⟨1, "B", "u", none, 0⟩], 2⟩ "A" 1).2
      (by decide)).2 "B"⟩

/-! Listing-id extraction: `OLXScraper.extract_listing_id` in both bot.py and
olx_scraper.py runs `re.search` with the pattern `-ID([a-zA-Z0-9]+)\.html`
and returns group 1 of the match, or `None` when there is no match. -/

/-- The regex character class `[a-zA-Z0-9]` (ASCII letters and digits). -/
def isAl (c : Char) : Bool := c.isAlpha || c.isDigit

/-- The literal tail `.html` of the regex. -/
def htmlSuffix : List Char := ['.', 'h', 't', 'm', 'l']

/-- One attempt of the regex `-ID([a-zA-Z0-9]+)\.html` anchored at a single
position whose first character is `c` and remaining characters are `cs`.
After the literals `-`, `I`, `D`, the greedy group `[a-zA-Z0-9]+` consumes the
maximal alphanumeric run; backtracking cannot shorten it (a shorter group
would have to match `.` against an alphanumeric character), so the attempt
succeeds exactly when that run is nonempty and is followed by `.html`. -/
def extractHead (c : Char) (cs : List Char) : Option (List Char) :=
  if c = '-' ∧ (['I', 'D'] : List Char).isPrefixOf cs = true then
    if (cs.drop 2).takeWhile isAl ≠ []
        ∧ htmlSuffix.isPrefixOf ((cs.drop 2).dropWhile isAl) = true then
      some ((cs.drop 2).takeWhile isAl)
    else none
  else none

/-- `re.search` semantics: try the pattern at each position from the left and
return the first successful match. -/
def extractFrom : List Char → Option (List Char)
  | [] => none
  | c :: cs =>
    match extractHead c cs with
    | some tok => some tok
    | none => extractFrom cs

/-- bot.py / olx_scraper.py `OLXScraper.extract_listing_id`. -/
def extract_listing_id (url : String) : Option String :=
  (extractFrom url.data).map (fun tok => String.mk tok)

/-- An occurrence, anywhere in the character sequence, of the substring
pattern `-ID<token>.html` with a nonempty alphanumeric token.  This is the
spec-side reading of "pattern: -ID<token>.html". -/
def hasIdPattern (cs : List Char) : Prop :=
  ∃ pre tok post,
    cs = pre ++ '-' :: 'I' :: 'D' :: (tok ++ htmlSuffix ++ post)
    ∧ tok ≠ [] ∧ ∀ c ∈ tok, isAl c = true

theorem takeWhile_all_append (p : Char → Bool) (t : List Char) (x : Char)
    (r : List Char) (ht : ∀ c ∈ t, p c = true) (hx : p x = false) :
    (t ++ x :: r).takeWhile p = t ∧ (t ++ x :: r).dropWhile p = x :: r := by
  induction t with
  | nil => simp [List.takeWhile_cons, List.dropWhile_cons, hx]
  | cons a t ih =>
    have ha : p a = true := ht a (List.mem_cons_self a t)
    have ih' := ih (fun c hc => ht c (List.mem_cons_of_mem a hc))
    simp [List.takeWhile_cons, List.dropWhile_cons, ha, ih'.1, ih'.2]

theorem extractHead_some (c : Char) (cs tok : List Char)
    (h : extractHead c cs = some tok) :
    c = '-' ∧ ∃ post, cs = 'I' :: 'D' :: (tok ++ htmlSuffix ++ post)
      ∧ tok ≠ [] ∧ ∀ c' ∈ tok, isAl c' = true := by
  unfold extractHead at h
  split at h
  · rename_i hcond
    split at h
    · rename_i hcond2
      obtain ⟨hc, hpre⟩ := hcond
      obtain ⟨hne, hsuf⟩ := hcond2
      obtain ⟨rest, hrest⟩ := List.isPrefixOf_iff_prefix.mp hpre
      obtain ⟨post, hpost⟩ := List.isPrefixOf_iff_prefix.mp hsuf
      refine ⟨hc, post, ?_, ?_, ?_⟩
      · have hdrop : cs.drop 2 = rest := by rw [← hrest]; rfl
        have htok : tok = rest.takeWhile isAl := by
          injection h with h'
          rw [← h', hdrop]
        rw [hdrop] at hpost
        rw [← hrest, htok]
        have hres : rest.takeWhile isAl ++ htmlSuffix ++ post = rest := by
          rw [List.append_assoc, hpost, List.takeWhile_append_dropWhile]
        rw [hres]
        rfl
      · injection h with h'
        rw [← h']; exact hne
      · injection h with h'
        intro c' hc'
        rw [← h'] at hc'
        have := List.all_takeWhile (p := isAl) (l := cs.drop 2)
        rw [List.all_eq_true] at this
        exact this c' hc'
    · exact absurd h (by simp)
  · exact absurd h (by simp)

theorem extractHead_of_pattern (tok post : List Char) (hne : tok ≠ [])
    (hal : ∀ c ∈ tok, isAl c = true) :
    extractHead '-' ('I' :: 'D' :: (tok ++ htmlSuffix ++ post)) = some tok := by
  have hdot : isAl '.' = false := by decide
  have hshape : tok ++ htmlSuffix ++ post
      = tok ++ '.' :: ('h' :: 't' :: 'm' :: 'l' :: post) := by
    simp [htmlSuffix]
  have h2 : ('I' :: 'D' :: (tok ++ htmlSuffix ++ post)).drop 2
      = tok ++ '.' :: ('h' :: 't' :: 'm' :: 'l' :: post) := by
    simp [hshape]
  have hsplit := takeWhile_all_append isAl tok '.'
    ('h' :: 't' :: 'm' :: 'l' :: post) hal hdot
  unfold extractHead
  rw [if_pos ⟨rfl, by simp [List.isPrefixOf]⟩, h2, if_pos]
  · rw [hsplit.1]
  · refine ⟨by rw [hsplit.1]; exact hne, ?_⟩
    rw [hsplit.2]
    simp [htmlSuffix, List.isPrefixOf]

theorem extractFrom_isSome_iff (cs : List Char) :
    (extractFrom cs).isSome = true ↔ hasIdPattern cs := by
  induction cs with
  | nil =>
    simp only [extractFrom, Option.isSome_none, hasIdPattern]
    constructor
    · intro h; cases h
    · rintro ⟨pre, tok, post, habs, -, -⟩
      exact absurd habs.symm (by simp)
  | cons c cs ih =>
    cases h : extractHead c cs with
    | some tok =>
      simp only [extractFrom, h, Option.isSome_some, true_iff]
      obtain ⟨hc, post, hcs, hne, hal⟩ := extractHead_some c cs tok h
      exact ⟨[], tok, post, by rw [hc, hcs]; rfl, hne, hal⟩
    | none =>
      simp only [extractFrom, h]
      rw [ih]
      constructor
      · rintro ⟨pre, tok, post, hcs, hne, hal⟩
        exact ⟨c :: pre, tok, post, by rw [hcs]; rfl, hne, hal⟩
      · rintro ⟨pre, tok, post, hcs, hne, hal⟩
        cases pre with
        | nil =>
          have hc : c = '-' := by
            have := congrArg (fun l => l.head?) hcs
            simpa using this
          have hcs' : cs = 'I' :: 'D' :: (tok ++ htmlSuffix ++ post) := by
            have := congrArg List.tail hcs
            simpa using this
          rw [hc, hcs'] at h
          rw [extractHead_of_pattern tok post hne hal] at h
          cases h
        | cons p pre =>
          refine ⟨pre, tok, post, ?_, hne, hal⟩
          have := congrArg List.tail hcs
          simpa using this

/-- The extraction succeeds on a url exactly when the url contains the
substring pattern `-ID<token>.html`. -/
theorem extract_listing_id_isSome_iff (url : String) :
    (extract_listing_id url).isSome = true ↔ hasIdPattern url.data := by
  rw [← extractFrom_isSome_iff]
  simp [extract_listing_id]

/-! Parsing model.  The HTML/JSON-LD traversal done by BeautifulSoup and
`json.loads` is an input of the model: a fetch outcome either is a transport
failure or carries the extracted JSON-LD offer map and the card containers.
All field-selection, formatting and dropping logic of the scripts is
embedded. -/

/-- Python `str.startswith`. -/
def pyStartsWith (s p : String) : Bool := p.data.isPrefixOf s.data

/-- Python substring test `needle in haystack`, on character lists. -/
def containsSub (needle : List Char) : List Char → Bool
  | [] => needle.isEmpty
  | c :: cs => needle.isPrefixOf (c :: cs) || containsSub needle cs

/-- bot.py line 31 / olx_scraper.py line 30. -/
def BASE_URL : String := "https://www.olx.uz"

/-- bot.py lines 184-185 / olx_scraper.py lines 196-197:
`if not href.startswith('http'): href = BASE_URL + href`. -/
def absolutize (href : String) : String :=
  if pyStartsWith href "http" then href else String.mk (BASE_URL.data ++ href.data)

/-- Transient listing dict appended by `fetch_listings` (bot.py lines
246-253; olx_scraper.py lines 215-221 builds the same dict without a
`details` key, modelled as the empty list). -/
structure Listing where
  id : String
  title : String
  price : String
  url : String
  location : String
  details : List String
deriving DecidableEq, Repr

/-- Python `s or default` for strings: the default replaces an empty
string. -/
def pyOr (s dflt : String) : String := if s = "" then dflt else s

/-- Python `int()` truncation toward zero, applied to the parsed price. -/
def pyTrunc (q : ℚ) : Int := if q < 0 then -(⌊-q⌋) else ⌊q⌋

/-- Digit grouping of the Python format spec `,`: starting from the least
significant digit, insert a separator after every three digits.  Input and
output are least-significant-first. -/
def groupRev (sep : Char) : List Char → List Char
  | a :: b :: c :: d :: rest => a :: b :: c :: sep :: groupRev sep (d :: rest)
  | l => l

/-- The f-string `f"{n:,}"` for a natural number. -/
def pyThousands (sep : Char) (n : Nat) : List Char :=
  (groupRev sep (Nat.toDigits 10 n).reverse).reverse

/-- The f-string `f"{i:,}"` for an integer. -/
def pyThousandsInt (i : Int) : List Char :=
  if i < 0 then '-' :: pyThousands ',' i.natAbs else pyThousands ',' i.toNat

/-- The character map of `str.replace(',', ' ')`. -/
def replComma (c : Char) : Char := if c = ',' then ' ' else c

/-- bot.py line 230:
`f"{int(float(p)):,} {currency}".replace(',', ' ')`. -/
def pyPriceFormat (q : ℚ) (currency : String) : String :=
  String.mk ((pyThousandsInt (pyTrunc q) ++ ' ' :: currency.data).map replComma)

/-- Python `str.lower()` on the characters relevant here: ASCII A-Z and
Cyrillic А-Я and Ё are mapped to their lower-case forms. -/
def pyLowerChar (c : Char) : Char :=
  if 'A' ≤ c ∧ c ≤ 'Z' then Char.ofNat (c.toNat + 32)
  else if 'А' ≤ c ∧ c ≤ 'Я' then Char.ofNat (c.toNat + 32)
  else if c = 'Ё' then 'ё'
  else c

/-- The currency marker fragments of bot.py line 233. -/
def markers : List String := ["сум", "usd", "y.e", "$", "у.е"]

/-- bot.py line 233: `any(c in t.lower() for c in ['сум','usd','y.e','$','у.е'])`. -/
def hasMarker (t : String) : Bool :=
  markers.any (fun m => containsSub m.data (t.data.map pyLowerChar))

/-- bot.py lines 212-217: collect the element texts, keeping a text only when
it is nonempty, not yet collected, and of length strictly between 2 and
150. -/
def collectTexts (raw : List String) : List String :=
  raw.foldl
    (fun acc t =>
      if t ≠ "" ∧ t ∉ acc ∧ 2 < t.length ∧ t.length < 150 then acc ++ [t]
      else acc)
    []

/-- bot.py lines 221-225: the first collected text longer than 10 characters,
or the empty string. -/
def titleFromTexts (texts : List String) : String :=
  match texts.find? (fun t => decide (10 < t.length)) with
  | some t => t
  | none => ""

/-- bot.py lines 227-235: the price is formatted from the structured JSON-LD
value when that value is truthy (the numeric value is modelled as `Option ℚ`;
a missing or empty value is `none` and the number `0` is falsy), otherwise it
is the first collected text containing a currency marker, otherwise empty. -/
def priceRaw (ldPrice : Option ℚ) (currency : String) (texts : List String) : String :=
  match ldPrice with
  | some q =>
    if q ≠ 0 then pyPriceFormat q currency
    else
      match texts.find? hasMarker with
      | some t => t
      | none => ""
  | none =>
    match texts.find? hasMarker with
    | some t => t
    | none => ""

/-- Entry of the `json_ld_data` map built in bot.py lines 153-172 from the
`application/ld+json` ItemList offers: name, numeric price, currency
(defaulted to "UZS" at construction), nested area name and url. -/
structure LdInfo where
  title : String
  price : Option ℚ
  currency : String
  location : String
  url : String

/-- One `[data-cy="l-card"]` container of bot.py: the href of its first
`a[href*="/d/"]` link (`none` when the card has no such link, lines 179-181)
and the raw texts of its content elements (lines 195-217). -/
structure Card where
  href : Option String
  texts : List String

namespace Bot

/-- The per-card body of the loop in bot.py lines 177-253; `ld` is the
`json_ld_data` map keyed by listing id.  `none` models the card being skipped
by `continue`. -/
def processCard (ld : String → Option LdInfo) (card : Card) : Option Listing :=
  match card.href with
  | none => none
  | some href0 =>
    let href := absolutize href0
    match extract_listing_id href with
    | none => none
    | some lid =>
      let ldi := ld lid
      let all_texts := collectTexts card.texts
      let ldTitle := match ldi with | some i => i.title | none => ""
      let title := if ldTitle = "" then titleFromTexts all_texts else ldTitle
      let ldPrice : Option ℚ := match ldi with | some i => i.price | none => none
      let currency := match ldi with | some i => i.currency | none => "UZS"
      let price := priceRaw ldPrice currency all_texts
      let location := match ldi with | some i => i.location | none => ""
      let details :=
        (all_texts.foldl
          (fun acc t => if t ≠ title ∧ t ≠ price ∧ t ∉ acc then acc ++ [t] else acc)
          []).take 6
      some ⟨lid, pyOr title "E\u0027lon", pyOr price "Kelishiladi",
            href, location, details⟩

/-- Outcome of `self.session.get(filter_url, timeout=30)` together with
`response.raise_for_status()` in bot.py lines 142-144: a transport failure
(`requests.RequestException`, which includes connection errors, timeouts and
the `HTTPError` of a non-2xx status) or the fetched page, presented as its
JSON-LD offer map and its card containers. -/
inductive FetchOutcome where
  | failure (err : String)
  | success (jsonLd : String → Option LdInfo) (cards : List Card)

/-- bot.py `OLXScraper.fetch_listings`: the except branch (lines 145-147)
returns `[]`; otherwise each card is processed in order and skipped cards are
dropped. -/
def fetch_listings : FetchOutcome → List Listing
  | .failure _ => []
  | .success ld cards => cards.filterMap (processCard ld)

end Bot

namespace Olx

/-- One card of olx_scraper.py `fetch_listings` (lines 188-221): the link
href, and the stripped texts of the optional title, price and location
elements. -/
structure OCard where
  href : Option String
  title : Option String
  priceText : Option String
  location : Option String

/-- Outcome of the HTTP GET of olx_scraper.py lines 171-176. -/
inductive FetchOutcome where
  | failure (err : String)
  | success (cards : List OCard)

/-- The per-card body of olx_scraper.py lines 188-221. -/
def processCard (c : OCard) : Option Listing :=
  match c.href with
  | none => none
  | some href0 =>
    let href := absolutize href0
    match extract_listing_id href with
    | none => none
    | some lid =>
      some ⟨lid, c.title.getD "Sarlavhasiz",
            c.priceText.getD "Narx ko\u0027rsatilmagan",
            href, c.location.getD "", []⟩

/-- olx_scraper.py `OLXScraper.fetch_listings`: the except branch (lines
174-176) returns `[]`; otherwise each card is processed in order. -/
def fetch_listings : FetchOutcome → List Listing
  | .failure _ => []
  | .success cards => cards.filterMap processCard

end Olx

/-- C9: a transport-level failure of the HTTP GET (connection error, timeout,
or the `HTTPError` raised by `raise_for_status` on a non-2xx status) makes
`fetch_listings` return the empty listing sequence, in both bot.py and
olx_scraper.py; the exception is caught inside `fetch_listings` and never
propagates to the caller. -/
theorem fetch_listings_transport_failure (e₁ e₂ : String) :
    Bot.fetch_listings (.failure e₁) = [] ∧ Olx.fetch_listings (.failure e₂) = [] :=
  ⟨rfl, rfl⟩

theorem processCard_url_id (ld : String → Option LdInfo) (card : Card)
    (l : Listing) (h : Bot.processCard ld card = some l) :
    extract_listing_id l.url = some l.id := by
  unfold Bot.processCard at h
  split at h
  · cases h
  · dsimp only at h
    split at h
    · cases h
    · rename_i hextract
      injection h with h'
      rw [← h']
      exact hextract

/-- C3 counterexample: the regex `-ID([a-zA-Z0-9]+)\.html` is searched
without an end anchor, so a url in which `.html` is not a suffix of the url
still yields an identifier. -/
theorem extract_listing_id_not_suffix_anchored :
    extract_listing_id "https://x/a-IDzz9.html/more" = some "zz9"
    ∧ htmlSuffix.isSuffixOf ("https://x/a-IDzz9.html/more").data = false := by
  constructor
  · decide
  · decide

/-- C3 (amended): the extracted identifier is the token of the leftmost
occurrence of the substring pattern `-ID<token>.html` anywhere in the url
(the `.html` need not end the url); the claim's example url yields `abc123`;
a url lacking the pattern yields no identifier, and a card whose url lacks it
is discarded, so every listing returned by `fetch_listings` carries an
extracted identifier. -/
theorem extract_listing_id_pattern :
    extract_listing_id "https://site/.../item-name-IDabc123.html" = some "abc123"
    ∧ (∀ url : String, (extract_listing_id url).isSome = true ↔ hasIdPattern url.data)
    ∧ (∀ (ld : String → Option LdInfo) (card : Card) (h : String),
        card.href = some h → extract_listing_id (absolutize h) = none →
        Bot.processCard ld card = none)
    ∧ (∀ (ld : String → Option LdInfo) (cards : List Card) (l : Listing),
        l ∈ Bot.fetch_listings (.success ld cards) →
        extract_listing_id l.url = some l.id) := by
  refine ⟨by decide, extract_listing_id_isSome_iff, ?_, ?_⟩
  · intro ld card h hhref hextract
    obtain ⟨href, texts⟩ := card
    cases hhref
    simp only [Bot.processCard, hextract]
  · intro ld cards l hl
    simp only [Bot.fetch_listings, List.mem_filterMap] at hl
    obtain ⟨card, -, hcard⟩ := hl
    exact processCard_url_id ld card l hcard

/-- Witness for `extract_listing_id_pattern`: a card without the pattern in
its url is discarded. -/
theorem extract_listing_id_pattern_witness :
    Bot.processCard (fun _ => none) ⟨some "/d/no-id-page", []⟩ = none :=
  extract_listing_id_pattern.2.2.1 (fun _ => none) ⟨some "/d/no-id-page", []⟩
    "/d/no-id-page" rfl (by decide)

/-! Price normalization (C8). -/

theorem digitChar_ne_comma (m : Nat) (hm : m < 10) : Nat.digitChar m ≠ ',' := by
  interval_cases m <;> decide

theorem toDigitsCore_mem :
    ∀ (fuel n : Nat) (ds : List Char) (c : Char),
      c ∈ Nat.toDigitsCore 10 fuel n ds →
      c ∈ ds ∨ ∃ m, m < 10 ∧ c = Nat.digitChar m := by
  intro fuel
  induction fuel with
  | zero =>
    intro n ds c hc
    simp only [Nat.toDigitsCore] at hc
    exact Or.inl hc
  | succ fuel ih =>
    intro n ds c hc
    simp only [Nat.toDigitsCore] at hc
    split at hc
    · rcases List.mem_cons.mp hc with h | h
      · exact Or.inr ⟨n % 10, Nat.mod_lt _ (by omega), h⟩
      · exact Or.inl h
    · rcases ih (n / 10) (Nat.digitChar (n % 10) :: ds) c hc with h | h
      · rcases List.mem_cons.mp h with h' | h'
        · exact Or.inr ⟨n % 10, Nat.mod_lt _ (by omega), h'⟩
        · exact Or.inl h'
      · exact Or.inr h

theorem toDigits_ne_comma (n : Nat) : ∀ c ∈ Nat.toDigits 10 n, c ≠ ',' := by
  intro c hc
  rcases toDigitsCore_mem (n + 1) n [] c hc with h | ⟨m, hm, hcm⟩
  · cases h
  · rw [hcm]
    exact digitChar_ne_comma m hm

theorem groupRev_map : ∀ (l : List Char),
    (groupRev ',' l).map replComma = groupRev ' ' (l.map replComma)
  | [] => rfl
  | [_] => rfl
  | [_, _] => rfl
  | [_, _, _] => rfl
  | a :: b :: c :: d :: rest => by
    simp only [groupRev, List.map_cons]
    rw [groupRev_map (d :: rest)]
    simp [replComma]

theorem map_replComma_eq_self (l : List Char) (h : ∀ c ∈ l, c ≠ ',') :
    l.map replComma = l := by
  induction l with
  | nil => rfl
  | cons a l ih =>
    simp only [List.map_cons]
    rw [ih (fun c hc => h c (List.mem_cons_of_mem a hc))]
    have ha := h a (List.mem_cons_self a l)
    simp [replComma, ha]

/-- Spec-side price format: the floor of the numeric price written in decimal
with the thousands groups separated by single spaces, followed by a space and
the currency code. -/
def specPriceFormat (n : Nat) (currency : String) : String :=
  String.mk ((groupRev ' ' (Nat.toDigits 10 n).reverse).reverse ++ ' ' :: currency.data)

/-- C8 (amended): when the structured JSON-LD price is a positive number, the
displayed price is its floor in decimal with space-separated thousands groups
followed by the currency code (for any currency code without a comma); when
the structured price is absent or zero AND no collected text fragment
contains a currency marker, the displayed price is the fixed negotiable
sentinel.  (When a text fragment does contain a currency marker, the code
displays that fragment instead of the sentinel — see the counterexample.) -/
theorem price_normalization :
    (∀ (q : ℚ) (currency : String) (texts : List String),
      0 < q → ',' ∉ currency.data →
      priceRaw (some q) currency texts = specPriceFormat (⌊q⌋).toNat currency)
    ∧ (∀ (ldPrice : Option ℚ) (currency : String) (texts : List String),
        (ldPrice = none ∨ ldPrice = some 0) →
        (∀ t ∈ texts, hasMarker t = false) →
        pyOr (priceRaw ldPrice currency texts) "Kelishiladi" = "Kelishiladi") := by
  constructor
  · intro q currency texts hq hcur
    have hqne : q ≠ 0 := ne_of_gt hq
    have hfloor : (0 : Int) ≤ ⌊q⌋ := Int.floor_nonneg.mpr hq.le
    have hcur' : ∀ c ∈ currency.data, c ≠ ',' := fun c hc he => hcur (he ▸ hc)
    simp only [priceRaw, if_pos hqne]
    unfold pyPriceFormat
    have htr : pyTrunc q = ⌊q⌋ := by
      unfold pyTrunc
      rw [if_neg (not_lt.mpr hq.le)]
    have hti : pyThousandsInt ⌊q⌋ = pyThousands ',' (⌊q⌋).toNat := by
      unfold pyThousandsInt
      rw [if_neg (not_lt.mpr hfloor)]
    rw [htr, hti]
    unfold pyThousands specPriceFormat
    congr 1
    rw [List.map_append]
    congr 1
    · rw [List.map_reverse, groupRev_map, List.map_reverse,
        map_replComma_eq_self _ (toDigits_ne_comma _)]
    · simp only [List.map_cons]
      rw [map_replComma_eq_self _ hcur']
      simp [replComma]
  · intro ldp currency texts hld hmk
    have hfind : texts.find? hasMarker = none :=
      List.find?_eq_none.mpr (fun t ht => by simp [hmk t ht])
    rcases hld with rfl | rfl
    · simp [priceRaw, hfind, pyOr]
    · simp [priceRaw, hfind, pyOr]

/-- Witness for `price_normalization`: the claim's example, 1500000 UZS. -/
theorem price_normalization_witness :
    priceRaw (some (1500000 : ℚ)) "UZS" [] = "1 500 000 UZS"
    ∧ pyOr (priceRaw none "UZS" []) "Kelishiladi" = "Kelishiladi" := by
  constructor
  · have h := price_normalization.1 1500000 "UZS" [] (by norm_num) (by decide)
    rw [h]
    have hfl : (⌊(1500000 : ℚ)⌋ : Int) = 1500000 := by norm_num
    rw [hfl]
    decide
  · exact price_normalization.2 none "UZS" [] (Or.inl rfl) (by simp)

/-- C8 counterexample: for a card whose structured price is absent but whose
texts contain a currency-marked fragment, the displayed price is that
fragment, not the negotiable sentinel. -/
theorem price_fallback_counterexample :
    Bot.processCard (fun _ => none) ⟨some "/d/x-IDpp7.html", ["100 $"]⟩
      = some ⟨"pp7", "E\u0027lon", "100 $", "https://www.olx.uz/d/x-IDpp7.html", "", []⟩
    ∧ ("100 $" : String) ≠ "Kelishiladi" := by
  constructor
  · decide
  · decide

/-! Scheduler: bot.py `check_all_urls` and olx_scraper.py
`process_listings`. -/

/-- One attempted notification of bot.py lines 428-446: destination chat,
listing id, and the boolean result of `send_telegram` (which
`check_all_urls` ignores). -/
abbrev Notif := String × String × Bool

/-- The per-listing body of bot.py `check_all_urls` lines 426-446: when the
listing is not yet seen, the message is built and sent with `send_telegram`
(result ignored) and the listing is marked seen unconditionally.  `sendOk`
models the delivery outcome of `send_telegram` for a chat and listing. -/
def checkListing (sendOk : String → Listing → Bool) (now : Nat) (chat : String) :
    DB × List Notif → Listing → DB × List Notif
  | (db, out), l =>
    if is_seen db l.id then (db, out)
    else (mark_seen db l.id l.title l.price l.url now,
          out ++ [(chat, l.id, sendOk chat l)])

/-- The inner loop of bot.py `check_all_urls` over the listings of one url
(lines 425-446). -/
def checkUrl (sendOk : String → Listing → Bool) (now : Nat)
    (fetch : String → Bot.FetchOutcome) (chat url : String)
    (st : DB × List Notif) : DB × List Notif :=
  (Bot.fetch_listings (fetch url)).foldl (checkListing sendOk now chat) st

/-- The keys of the `chat_urls` dict of bot.py lines 415-420: chat ids in
order of first appearance (Python dicts preserve insertion order). -/
def chatKeys (filters : List (String × String)) : List String :=
  filters.foldl (fun acc f => if f.1 ∈ acc then acc else acc ++ [f.1]) []

/-- The (chat, url) pairs in the order in which bot.py lines 422-423 iterate:
per chat key, the chat's urls in `get_all_filters` order. -/
def cyclePairs (filters : List (String × String)) : List (String × String) :=
  (chatKeys filters).flatMap
    (fun c => (filters.filter (fun f => f.1 == c)).map (fun f => (c, f.2)))

/-- bot.py `check_all_urls`: one full scheduler cycle over the registered
filters.  `fetch` models the network, `sendOk` the Telegram delivery
outcomes and `now` the timestamp; the `time.sleep` calls and the per-url
`except` clause (unreachable in the pure model) are dropped. -/
def check_all_urls (sendOk : String → Listing → Bool) (now : Nat)
    (fetch : String → Bot.FetchOutcome) (db : DB)
    (filters : List (String × String)) : DB × List Notif :=
  (cyclePairs filters).foldl
    (fun st p => checkUrl sendOk now fetch p.1 p.2 st) (db, [])

/-- The flattened sequence of (chat, listing) items a cycle processes. -/
def cycleItems (fetch : String → Bot.FetchOutcome)
    (pairs : List (String × String)) : List (String × Listing) :=
  pairs.flatMap (fun p => (Bot.fetch_listings (fetch p.2)).map (fun l => (p.1, l)))

/-- Folding the per-listing step over a flattened item sequence. -/
def runItems (sendOk : String → Listing → Bool) (now : Nat)
    (st : DB × List Notif) (items : List (String × Listing)) : DB × List Notif :=
  items.foldl (fun s cl => checkListing sendOk now cl.1 s cl.2) st

/-- The notifications a cycle attempts starting from store `db`. -/
def newNotifs (sendOk : String → Listing → Bool) (now : Nat) (db : DB)
    (items : List (String × Listing)) : List Notif :=
  (runItems sendOk now (db, []) items).2

theorem runItems_cons (sendOk : String → Listing → Bool) (now : Nat)
    (st : DB × List Notif) (cl : String × Listing)
    (items : List (String × Listing)) :
    runItems sendOk now st (cl :: items)
      = runItems sendOk now (checkListing sendOk now cl.1 st cl.2) items := rfl

theorem checkListing_seen (sendOk : String → Listing → Bool) (now : Nat)
    (chat : String) (db : DB) (out : List Notif) (l : Listing)
    (h : is_seen db l.id = true) :
    checkListing sendOk now chat (db, out) l = (db, out) := by
  simp [checkListing, h]

theorem checkListing_unseen (sendOk : String → Listing → Bool) (now : Nat)
    (chat : String) (db : DB) (out : List Notif) (l : Listing)
    (h : is_seen db l.id = false) :
    checkListing sendOk now chat (db, out) l
      = (mark_seen db l.id l.title l.price l.url now,
         out ++ [(chat, l.id, sendOk chat l)]) := by
  simp [checkListing, h]

theorem is_seen_runItems (sendOk : String → Listing → Bool) (now : Nat) :
    ∀ (items : List (String × Listing)) (db : DB) (acc : List Notif) (x : String),
      is_seen (runItems sendOk now (db, acc) items).1 x
        = (is_seen db x || items.any (fun cl => cl.2.id == x)) := by
  intro items
  induction items with
  | nil => intro db acc x; simp [runItems]
  | cons cl items ih =>
    intro db acc x
    rw [runItems_cons]
    cases hseen : is_seen db cl.2.id with
    | true =>
      rw [checkListing_seen _ _ _ _ _ _ hseen, ih db acc x]
      by_cases hx : cl.2.id = x
      · subst hx
        simp [hseen]
      · have hbx : (cl.2.id == x) = false := beq_eq_false_iff_ne.mpr hx
        simp [hbx]
    | false =>
      rw [checkListing_unseen _ _ _ _ _ _ hseen, ih, is_seen_mark]
      simp [Bool.or_assoc]

theorem runItems_acc (sendOk : String → Listing → Bool) (now : Nat) :
    ∀ (items : List (String × Listing)) (db : DB) (acc : List Notif),
      runItems sendOk now (db, acc) items
        = ((runItems sendOk now (db, []) items).1,
           acc ++ (runItems sendOk now (db, []) items).2) := by
  intro items
  induction items with
  | nil => intro db acc; simp [runItems]
  | cons cl items ih =>
    intro db acc
    rw [runItems_cons, runItems_cons]
    cases hseen : is_seen db cl.2.id with
    | true =>
      rw [checkListing_seen _ _ _ _ _ _ hseen, checkListing_seen _ _ _ _ _ _ hseen]
      exact ih db acc
    | false =>
      rw [checkListing_unseen _ _ _ _ _ _ hseen, checkListing_unseen _ _ _ _ _ _ hseen]
      rw [ih _ (acc ++ [(cl.1, cl.2.id, sendOk cl.1 cl.2)]),
        ih _ ([] ++ [(cl.1, cl.2.id, sendOk cl.1 cl.2)])]
      simp

theorem newNotifs_unseen (sendOk : String → Listing → Bool) (now : Nat) :
    ∀ (items : List (String × Listing)) (db : DB) (c x : String) (b : Bool),
      (c, x, b) ∈ newNotifs sendOk now db items → is_seen db x = false := by
  intro items
  induction items with
  | nil =>
    intro db c x b h
    simp [newNotifs, runItems] at h
  | cons cl items ih =>
    intro db c x b h
    unfold newNotifs at h
    rw [runItems_cons] at h
    cases hseen : is_seen db cl.2.id with
    | true =>
      rw [checkListing_seen _ _ _ _ _ _ hseen] at h
      exact ih db c x b h
    | false =>
      rw [checkListing_unseen _ _ _ _ _ _ hseen, runItems_acc] at h
      simp only [List.nil_append] at h
      rcases List.mem_append.mp h with h1 | h2
      · have h1' := List.mem_singleton.mp h1
        have hx : x = cl.2.id := congrArg (fun n => n.2.1) h1'
        rw [hx]
        exact hseen
      · have hb := ih _ c x b h2
        rw [is_seen_mark] at hb
        exact (Bool.or_eq_false_iff.mp hb).1

theorem newNotifs_nodup (sendOk : String → Listing → Bool) (now : Nat) :
    ∀ (items : List (String × Listing)) (db : DB),
      ((newNotifs sendOk now db items).map (fun n => n.2.1)).Nodup := by
  intro items
  induction items with
  | nil => intro db; simp [newNotifs, runItems]
  | cons cl items ih =>
    intro db
    unfold newNotifs
    rw [runItems_cons]
    cases hseen : is_seen db cl.2.id with
    | true =>
      rw [checkListing_seen _ _ _ _ _ _ hseen]
      exact ih db
    | false =>
      rw [checkListing_unseen _ _ _ _ _ _ hseen, runItems_acc]
      simp only [List.nil_append, List.singleton_append, List.map_cons]
      rw [List.nodup_cons]
      refine ⟨?_, ih _⟩
      intro hmem
      rw [List.mem_map] at hmem
      obtain ⟨⟨c, x, b⟩, hn, hx⟩ := hmem
      have hb := newNotifs_unseen sendOk now items _ c x b hn
      rw [is_seen_mark] at hb
      simp only at hx
      rw [hx] at hb
      simp at hb

theorem newNotifs_first (sendOk : String → Listing → Bool) (now : Nat) :
    ∀ (items : List (String × Listing)) (db : DB) (x : String)
      (fcl : String × Listing),
      items.find? (fun cl => cl.2.id == x) = some fcl →
      is_seen db x = false →
      ((fcl.1, x, sendOk fcl.1 fcl.2) ∈ newNotifs sendOk now db items
       ∧ ∀ c b, (c, x, b) ∈ newNotifs sendOk now db items → c = fcl.1) := by
  intro items
  induction items with
  | nil =>
    intro db x fcl hfind
    simp at hfind
  | cons cl items ih =>
    intro db x fcl hfind hunseen
    cases hid : (cl.2.id == x) with
    | true =>
      have hx : cl.2.id = x := beq_iff_eq.mp hid
      have hfcl : fcl = cl := by
        rw [List.find?_cons_of_pos items hid] at hfind
        injection hfind with h'
        exact h'.symm
      subst hfcl
      have hseen : is_seen db fcl.2.id = false := by rw [hx]; exact hunseen
      unfold newNotifs
      rw [runItems_cons, checkListing_unseen _ _ _ _ _ _ hseen, runItems_acc]
      simp only [List.nil_append, List.singleton_append]
      constructor
      · rw [← hx]
        exact List.mem_cons_self _ _
      · intro c b hmem
        rcases List.mem_cons.mp hmem with h1 | h2
        · exact congrArg (fun n => n.1) h1
        · exfalso
          have hb := newNotifs_unseen sendOk now items _ c x b h2
          rw [is_seen_mark, hid] at hb
          simp at hb
    | false =>
      have hfind' : items.find? (fun cl => cl.2.id == x) = some fcl := by
        rw [List.find?_cons_of_neg items (by simp [hid])] at hfind
        exact hfind
      unfold newNotifs
      rw [runItems_cons]
      cases hseen : is_seen db cl.2.id with
      | true =>
        rw [checkListing_seen _ _ _ _ _ _ hseen]
        exact ih db x fcl hfind' hunseen
      | false =>
        rw [checkListing_unseen _ _ _ _ _ _ hseen, runItems_acc]
        simp only [List.nil_append, List.singleton_append]
        have hunseen' :
            is_seen (mark_seen db cl.2.id cl.2.title cl.2.price cl.2.url now) x
              = false := by
          rw [is_seen_mark, hunseen, hid]
          rfl
        obtain ⟨hmem, huniq⟩ := ih _ x fcl hfind' hunseen'
        constructor
        · exact List.mem_cons_of_mem _ hmem
        · intro c b hmem2
          rcases List.mem_cons.mp hmem2 with h1 | h2
          · exfalso
            have hx : x = cl.2.id := congrArg (fun n => n.2.1) h1
            rw [hx] at hid
            simp at hid
          · exact huniq c b h2

theorem runItems_append (sendOk : String → Listing → Bool) (now : Nat)
    (st : DB × List Notif) (xs ys : List (String × Listing)) :
    runItems sendOk now st (xs ++ ys)
      = runItems sendOk now (runItems sendOk now st xs) ys := by
  unfold runItems
  rw [List.foldl_append]

theorem checkUrl_eq_runItems (sendOk : String → Listing → Bool) (now : Nat)
    (fetch : String → Bot.FetchOutcome) (chat url : String)
    (st : DB × List Notif) :
    checkUrl sendOk now fetch chat url st
      = runItems sendOk now st
          ((Bot.fetch_listings (fetch url)).map (fun l => (chat, l))) := by
  unfold checkUrl runItems
  rw [List.foldl_map]

theorem foldl_checkUrl (sendOk : String → Listing → Bool) (now : Nat)
    (fetch : String → Bot.FetchOutcome) :
    ∀ (pairs : List (String × String)) (st : DB × List Notif),
      pairs.foldl (fun st p => checkUrl sendOk now fetch p.1 p.2 st) st
        = runItems sendOk now st (cycleItems fetch pairs) := by
  intro pairs
  induction pairs with
  | nil => intro st; rfl
  | cons p ps ih =>
    intro st
    rw [List.foldl_cons, ih]
    unfold cycleItems
    rw [List.flatMap_cons, runItems_append, checkUrl_eq_runItems]

theorem check_all_urls_eq_runItems (sendOk : String → Listing → Bool)
    (now : Nat) (fetch : String → Bot.FetchOutcome) (db : DB)
    (filters : List (String × String)) :
    check_all_urls sendOk now fetch db filters
      = runItems sendOk now (db, []) (cycleItems fetch (cyclePairs filters)) := by
  unfold check_all_urls
  exact foldl_checkUrl sendOk now fetch (cyclePairs filters) (db, [])

/-- C5: within one `check_all_urls` cycle each listing id is reported at most
once globally: the notifications of a cycle carry pairwise distinct listing
ids; the unique notification for a previously-unseen id goes to the chat of
the first (chat, url) pair in processing order whose fetched listings contain
that id; the id is seen in the resulting store; and no cycle run from a store
in which the id is seen ever notifies any chat of it again. -/
theorem cycle_reports_once (sendOk : String → Listing → Bool) (now : Nat)
    (fetch : String → Bot.FetchOutcome) (db : DB)
    (filters : List (String × String)) (x : String) (fcl : String × Listing)
    (hfind : (cycleItems fetch (cyclePairs filters)).find?
        (fun cl => cl.2.id == x) = some fcl)
    (hunseen : is_seen db x = false) :
    ((fcl.1, x, sendOk fcl.1 fcl.2) ∈ (check_all_urls sendOk now fetch db filters).2)
    ∧ (∀ c b, (c, x, b) ∈ (check_all_urls sendOk now fetch db filters).2 → c = fcl.1)
    ∧ ((check_all_urls sendOk now fetch db filters).2.map (fun n => n.2.1)).Nodup
    ∧ is_seen (check_all_urls sendOk now fetch db filters).1 x = true
    ∧ (∀ (sendOk2 : String → Listing → Bool) (now2 : Nat)
          (fetch2 : String → Bot.FetchOutcome) (db2 : DB)
          (filters2 : List (String × String)) (c : String) (b : Bool),
        is_seen db2 x = true →
        (c, x, b) ∉ (check_all_urls sendOk2 now2 fetch2 db2 filters2).2) := by
  rw [check_all_urls_eq_runItems]
  obtain ⟨hmem, huniq⟩ :=
    newNotifs_first sendOk now (cycleItems fetch (cyclePairs filters)) db x fcl
      hfind hunseen
  refine ⟨hmem, huniq, newNotifs_nodup sendOk now _ db, ?_, ?_⟩
  · rw [is_seen_runItems]
    have hx : (cycleItems fetch (cyclePairs filters)).any
        (fun cl => cl.2.id == x) = true := by
      rw [List.any_eq_true]
      exact ⟨fcl, List.mem_of_find?_eq_some hfind,
        List.find?_some (p := fun cl : String × Listing => cl.2.id == x) hfind⟩
    rw [hx]
    simp
  · intro sendOk2 now2 fetch2 db2 filters2 c b hseen2 hmem2
    rw [check_all_urls_eq_runItems] at hmem2
    have := newNotifs_unseen sendOk2 now2 _ db2 c x b hmem2
    rw [hseen2] at this
    cases this

/-- Witness for `cycle_reports_once`: two owners, one shared listing, only
the first is notified. -/
theorem cycle_reports_once_witness :
    (("A", "xid", true)
      ∈ (check_all_urls (fun _ _ => true) 0
          (fun _ => Bot.FetchOutcome.success (fun _ => none)
            [⟨some "/d/a-IDxid.html", []⟩])
          [] [("A", "u"), ("B", "v")]).2)
    ∧ (∀ c b, (c, "xid", b)
        ∈ (check_all_urls (fun _ _ => true) 0
            (fun _ => Bot.FetchOutcome.success (fun _ => none)
              [⟨some "/d/a-IDxid.html", []⟩])
            [] [("A", "u"), ("B", "v")]).2 → c = "A") := by
  have h := cycle_reports_once (fun _ _ => true) 0
    (fun _ => Bot.FetchOutcome.success (fun _ => none)
      [⟨some "/d/a-IDxid.html", []⟩])
    [] [("A", "u"), ("B", "v")] "xid"
    ("A", ⟨"xid", "E\u0027lon", "Kelishiladi",
      "https://www.olx.uz/d/a-IDxid.html", "", []⟩)
    (by decide) (by decide)
  exact ⟨h.1, h.2.1⟩

/-! Dispatch-then-mark ordering (C4). -/

/-- The per-listing body of olx_scraper.py `process_listings` lines 246-260:
a new listing is marked seen (and counted) only when
`self.notifier.send_message` returned True. -/
def processListing (send : Listing → Bool) (now : Nat) :
    DB × Nat → Listing → DB × Nat
  | (db, cnt), l =>
    if is_seen db l.id then (db, cnt)
    else if send l then (mark_seen db l.id l.title l.price l.url now, cnt + 1)
    else (db, cnt)

/-- olx_scraper.py `OLXScraper.process_listings`: fetch, then process each
listing; returns the updated store and `new_count`. -/
def process_listings (send : Listing → Bool) (now : Nat)
    (o : Olx.FetchOutcome) (db : DB) : DB × Nat :=
  (Olx.fetch_listings o).foldl (processListing send now) (db, 0)

/-- C4 counterexample: in bot.py `check_all_urls` the dispatch result is
ignored — a cycle whose only dispatch reports failure still marks the
listing seen, so it is never retried. -/
theorem dispatch_failure_marks_counterexample :
    (check_all_urls (fun _ _ => false) 0
        (fun _ => Bot.FetchOutcome.success (fun _ => none)
          [⟨some "/d/a-IDxid.html", []⟩])
        [] [("c", "u")]).2
      = [("c", "xid", false)]
    ∧ is_seen (check_all_urls (fun _ _ => false) 0
        (fun _ => Bot.FetchOutcome.success (fun _ => none)
          [⟨some "/d/a-IDxid.html", []⟩])
        [] [("c", "u")]).1 "xid" = true := by
  constructor
  · decide
  · decide

/-- C4 (amended): in olx_scraper.py `process_listings` a newly-detected
listing is marked seen only after `send_message` reported success — on a
reported failure the store is unchanged and the listing is retried next
cycle; in bot.py `check_all_urls` the notification is attempted first but
the listing is then marked seen regardless of the reported outcome, so a
failed dispatch there is not retried. -/
theorem dispatch_then_mark (send : Listing → Bool)
    (sendOk : String → Listing → Bool) (db : DB) (l : Listing) (cnt : Nat)
    (now : Nat) (chat : String) (acc : List Notif)
    (h : is_seen db l.id = false) :
    (send l = false → processListing send now (db, cnt) l = (db, cnt))
    ∧ (send l = true →
        processListing send now (db, cnt) l
          = (mark_seen db l.id l.title l.price l.url now, cnt + 1))
    ∧ (checkListing sendOk now chat (db, acc) l
        = (mark_seen db l.id l.title l.price l.url now,
           acc ++ [(chat, l.id, sendOk chat l)])) := by
  refine ⟨?_, ?_, ?_⟩
  · intro hs; simp [processListing, h, hs]
  · intro hs; simp [processListing, h, hs]
  · exact checkListing_unseen _ _ _ _ _ _ h

/-- Witness for `dispatch_then_mark`: a failed dispatch leaves the
olx_scraper store unchanged. -/
theorem dispatch_then_mark_witness :
    processListing (fun _ => false) 0 ([], 0) ⟨"a", "t", "p", "u", "", []⟩
      = ([], 0) :=
  (dispatch_then_mark (fun _ => false) (fun _ _ => false) []
    ⟨"a", "t", "p", "u", "", []⟩ 0 0 "c" [] (by decide)).1 rfl

/-! Command handler: bot.py `handle_message` and `add_filter_url`. -/

/-- Python `str.strip()`: whitespace removed from both ends. -/
def pyStrip (s : String) : String :=
  String.mk (((s.data.dropWhile Char.isWhitespace).reverse.dropWhile
    Char.isWhitespace).reverse)

/-- Digit run of Python `int(s)`. -/
def parseDigits (l : List Char) : Option Nat :=
  if l ≠ [] ∧ l.all Char.isDigit then
    some (l.foldl (fun a c => a * 10 + (c.toNat - 48)) 0)
  else none

/-- Python `int(s)` on an already-stripped string: optional sign followed by
at least one digit; anything else raises `ValueError` (modelled as `none`;
the underscore grouping feature is not modelled). -/
def pyParseInt (s : String) : Option Int :=
  match s.data with
  | '-' :: rest => (parseDigits rest).map (fun n => -(n : Int))
  | '+' :: rest => (parseDigits rest).map (fun n => (n : Int))
  | l => (parseDigits l).map (fun n => (n : Int))

/-- The distinct replies `handle_message` and `add_filter_url` send through
`send_telegram`.  The reply texts are fixed format strings in bot.py; only
their identity matters for the dispatch logic. -/
inductive Reply where
  | startHelp
  | helpText
  | listFilters (fs : List FilterRow)
  | listEmpty
  | addUsage
  | removeUsage
  | removeOk
  | removeNotFound
  | removeBadId
  | unknownCommand
  | onlyOlxLinks
  | addingWait
  | addDone (count : Nat)
  | addFailed
deriving DecidableEq, Repr

/-- The tables visible to the handler. -/
structure BotState where
  filters : FilterDB
  seen : DB
deriving Repr

/-- bot.py `add_filter_url`: reject non-olx urls; insert the filter; on
success fetch the url once, mark every currently-listed listing seen, and
report the number of suppressed listings; on a duplicate report the
failure. -/
def add_filter_url (fetch : String → Bot.FetchOutcome) (st : BotState)
    (chat url : String) (now : Nat) : BotState × List (String × Reply) :=
  if pyStartsWith url "https://www.olx.uz" = false then
    (st, [(chat, .onlyOlxLinks)])
  else
    match add_filter st.filters chat url none now with
    | (fdb2, .ok _) =>
      let listings := Bot.fetch_listings (fetch url)
      let seen2 := listings.foldl
        (fun db l => mark_seen db l.id l.title l.price l.url now) st.seen
      (⟨fdb2, seen2⟩, [(chat, .addingWait), (chat, .addDone listings.length)])
    | (_, .dup) => (st, [(chat, .addFailed)])

/-- bot.py `handle_message`: the command dispatch chain over the stripped
text. -/
def handle_message (fetch : String → Bot.FetchOutcome) (st : BotState)
    (chat text : String) (now : Nat) : BotState × List (String × Reply) :=
  let t := pyStrip text
  if t = "/start" then (st, [(chat, .startHelp)])
  else if t = "/help" then (st, [(chat, .helpText)])
  else if t = "/list" then
    if get_filters st.filters chat = [] then (st, [(chat, .listEmpty)])
    else (st, [(chat, .listFilters (get_filters st.filters chat))])
  else if pyStartsWith t "/add" then
    if pyStrip (String.mk (t.data.drop 4)) = "" then (st, [(chat, .addUsage)])
    else add_filter_url fetch st chat (pyStrip (String.mk (t.data.drop 4))) now
  else if pyStartsWith t "/remove" then
    if pyStrip (String.mk (t.data.drop 7)) = "" then (st, [(chat, .removeUsage)])
    else
      match pyParseInt (pyStrip (String.mk (t.data.drop 7))) with
      | some fid =>
        (⟨(remove_filter st.filters chat fid).1, st.seen⟩,
         [(chat, if (remove_filter st.filters chat fid).2 then Reply.removeOk
                 else Reply.removeNotFound)])
      | none => (st, [(chat, .removeBadId)])
  else if pyStartsWith t "https://www.olx.uz" then
    add_filter_url fetch st chat t now
  else if pyStartsWith t "/" then (st, [])
  else (st, [(chat, .unknownCommand)])

theorem startsWith_slash_not_olx (t : String)
    (h : pyStartsWith t "/" = true) :
    pyStartsWith t "https://www.olx.uz" = false := by
  unfold pyStartsWith at h ⊢
  obtain ⟨rest, hrest⟩ := List.isPrefixOf_iff_prefix.mp h
  rw [← hrest]
  rfl

theorem add_filter_url_no_unknown (fetch : String → Bot.FetchOutcome)
    (st : BotState) (chat url : String) (now : Nat) (c : String) (r : Reply)
    (h : (c, r) ∈ (add_filter_url fetch st chat url now).2) :
    r ≠ Reply.unknownCommand := by
  unfold add_filter_url at h
  split at h
  · simp at h
    simp [h.2]
  · split at h
    · simp at h
      rcases h with ⟨-, h⟩ | ⟨-, h⟩ <;> simp [h]
    · simp at h
      simp [h.2]

/-- C10: text that (after stripping) begins with "/" but is none of the
recognized commands (`/start`, `/help`, `/list`, `/add...`, `/remove...`)
produces no reply at all, and the generic unknown-command reply is sent only
for text that neither begins with "/" nor with the olx.uz origin. -/
theorem unknown_command_silence (fetch : String → Bot.FetchOutcome)
    (st : BotState) (chat text : String) (now : Nat) :
    (pyStartsWith (pyStrip text) "/" = true →
     pyStrip text ≠ "/start" → pyStrip text ≠ "/help" → pyStrip text ≠ "/list" →
     pyStartsWith (pyStrip text) "/add" = false →
     pyStartsWith (pyStrip text) "/remove" = false →
     (handle_message fetch st chat text now).2 = [])
    ∧ (∀ (c : String) (r : Reply),
        (c, r) ∈ (handle_message fetch st chat text now).2 →
        r = Reply.unknownCommand →
        pyStartsWith (pyStrip text) "/" = false
        ∧ pyStartsWith (pyStrip text) "https://www.olx.uz" = false) := by
  constructor
  · intro h1 h2 h3 h4 h5 h6
    unfold handle_message
    rw [if_neg h2, if_neg h3, if_neg h4, if_neg (by simp [h5]),
      if_neg (by simp [h6]),
      if_neg (by simp [startsWith_slash_not_olx _ h1]),
      if_pos (by simp [h1])]
  · intro c r hmem hr
    subst hr
    unfold handle_message at hmem
    by_cases c1 : pyStrip text = "/start"
    · rw [if_pos c1] at hmem; simp at hmem
    · rw [if_neg c1] at hmem
      by_cases c2 : pyStrip text = "/help"
      · rw [if_pos c2] at hmem; simp at hmem
      · rw [if_neg c2] at hmem
        by_cases c3 : pyStrip text = "/list"
        · rw [if_pos c3] at hmem
          by_cases c3b : get_filters st.filters chat = []
          · rw [if_pos c3b] at hmem; simp at hmem
          · rw [if_neg c3b] at hmem; simp at hmem
        · rw [if_neg c3] at hmem
          by_cases c4 : pyStartsWith (pyStrip text) "/add" = true
          · rw [if_pos c4] at hmem
            by_cases c4b : pyStrip (String.mk ((pyStrip text).data.drop 4)) = ""
            · rw [if_pos c4b] at hmem; simp at hmem
            · rw [if_neg c4b] at hmem
              exact absurd rfl (add_filter_url_no_unknown _ _ _ _ _ _ _ hmem)
          · rw [if_neg c4] at hmem
            by_cases c5 : pyStartsWith (pyStrip text) "/remove" = true
            · rw [if_pos c5] at hmem
              by_cases c5b : pyStrip (String.mk ((pyStrip text).data.drop 7)) = ""
              · rw [if_pos c5b] at hmem; simp at hmem
              · rw [if_neg c5b] at hmem
                cases hpi : pyParseInt (pyStrip (String.mk ((pyStrip text).data.drop 7))) with
                | none => rw [hpi] at hmem; simp at hmem
                | some fid =>
                  rw [hpi] at hmem
                  simp only [List.mem_singleton, Prod.mk.injEq] at hmem
                  by_cases c5c : (remove_filter st.filters chat fid).2 = true
                  · rw [if_pos c5c] at hmem
                    exact absurd hmem.2 (by decide)
                  · rw [if_neg c5c] at hmem
                    exact absurd hmem.2 (by decide)
            · rw [if_neg c5] at hmem
              by_cases c6 : pyStartsWith (pyStrip text) "https://www.olx.uz" = true
              · rw [if_pos c6] at hmem
                exact absurd rfl (add_filter_url_no_unknown _ _ _ _ _ _ _ hmem)
              · rw [if_neg c6] at hmem
                by_cases c7 : pyStartsWith (pyStrip text) "/" = true
                · rw [if_pos c7] at hmem; simp at hmem
                · rw [if_neg c7] at hmem
                  exact ⟨by simpa using c7, by simpa using c6⟩

/-- Witness for `unknown_command_silence`: an unrecognized slash command gets
no reply at all. -/
theorem unknown_command_silence_witness :
    (handle_message (fun _ => Bot.FetchOutcome.failure "e") ⟨⟨[], 1⟩, []⟩
      "c" "/bogus" 0).2 = [] :=
  (unknown_command_silence (fun _ => Bot.FetchOutcome.failure "e") ⟨⟨[], 1⟩, []⟩
    "c" "/bogus" 0).1 (by decide) (by decide) (by decide) (by decide)
    (by decide) (by decide)

end OlxBot
